import Mathlib

/-!
A verification development for the dmclc5 launcher core: a shallow
embedding, in Lean, of the dependency-graph validator
(`src/components/mods.rs`), the rule evaluator and descriptor merger
(`src/utils.rs`), the download pre-filter and orchestrator
(`src/utils/download.rs`), the library resource planner
(`src/minecraft/install.rs`) and the mod enumerator
(`src/components/mods.rs`, `list_mods`), together with theorems about
their behaviour.

Modelling conventions:
* The external `versions` crate is abstracted: a `versions::Versioning`
  is an arbitrary type `V`, and a `versions::Requirement` is modelled by
  its `matches` predicate `V → Bool`.
* Rust `HashMap`s are modelled as association lists with `List.lookup`;
  iteration order of a `HashMap` is unspecified in Rust, the list order
  stands in for whatever order the map iterates in.
* Compile-time platform selection (`get_os`) becomes an explicit
  `OSType` argument.
* Async code is sequentialised; the filesystem becomes an explicit map
  from path strings to file metadata, and the external `async_fetcher`
  crate becomes an explicit per-source outcome function.
-/

set_option autoImplicit false

namespace Dmclc

universe u v

/-- Abstraction of `versions::Requirement`: identified with its
`matches` predicate on versionings `V`. -/
def Requirement (V : Type u) : Type u := V → Bool

/-- `VersionBound(pub Vec<versions::Requirement>)` from
`src/components/mods.rs`. -/
structure VersionBound (V : Type u) : Type u where
  reqs : List (Requirement V)

/-- `VersionBound::matches`: all the requirements must match. -/
def VersionBound.matches {V : Type u} (b : VersionBound V) (v : V) : Bool :=
  b.reqs.all (fun r => r v)

/-- `DepRequirement` from `src/components/mods.rs`.  An inductive rather
than a structure because the `unless` field nests `DepRequirement`
recursively; `unless` is a reserved word in Lean, so the field is
called `unlessList`. -/
inductive DepRequirement (V : Type u) : Type u where
  | mk (id : String) (version : List (VersionBound V))
       (reason : Option String) (unlessL : List (DepRequirement V))

/-- Projection: `DepRequirement.id`. -/
def DepRequirement.id {V : Type u} : DepRequirement V → String
  | .mk i _ _ _ => i

/-- Projection: `DepRequirement.version`. -/
def DepRequirement.version {V : Type u} : DepRequirement V → List (VersionBound V)
  | .mk _ v _ _ => v

/-- Projection: the `unless` field of a `DepRequirement`. -/
def DepRequirement.unlessList {V : Type u} : DepRequirement V → List (DepRequirement V)
  | .mk _ _ _ u => u

/-- `ModInfo` from `src/components/mods.rs`. -/
structure ModInfo (V : Type u) : Type u where
  name : Option String
  id : String
  version : Option V
  desc : Option String
  license : String
  depends : List (DepRequirement V)
  recommends : List (DepRequirement V)
  suggests : List (DepRequirement V)
  conflicts : List (DepRequirement V)
  breaks : List (DepRequirement V)

/-- `ModIssueLevel` from `src/components/mods.rs`. -/
inductive ModIssueLevel : Type where
  | Hard
  | Soft
  | Suggestive
deriving DecidableEq

/-- The five relation kinds a `ModInfo` carries; used to keep the
localized issue message (built with the `t!` macro in the source) as
structured data instead of a rendered string. -/
inductive Relation : Type where
  | depends
  | recommends
  | suggests
  | conflicts
  | breaks
deriving DecidableEq

/-- `ModIssue` from `src/components/mods.rs`.  The `message` string of
the source is produced by the i18n `t!` macro from the source mod's
display name, the relation kind and the requirement; we keep those
three arguments instead of the rendered text. -/
structure ModIssue (V : Type u) : Type u where
  level : ModIssueLevel
  source : String
  relation : Relation
  dependency : DepRequirement V

/-- The per-bound test inside the version loop of
`check_mod_dependency`: `mod_info.version.is_none() ||
i.matches(&mod_info.version.as_ref().unwrap())`. -/
def matchesOptVersion {V : Type u} (b : VersionBound V) : Option V → Bool
  | none => true
  | some v => b.matches v

mutual

/-- `check_mod_dependency` from `src/components/mods.rs` (lines
158-180).  `mods` is the id→info map (modelled as an association
list), `opposite` is the `invert` flag. -/
def check_mod_dependency {V : Type u} (mods : List (String × ModInfo V)) :
    DepRequirement V → Bool → Bool
  | .mk i vers _ unl, opposite =>
    if check_unless_list mods unl then
      true
    else
      match mods.lookup i with
      | some modInfo =>
        if vers.isEmpty then
          !opposite
        else if vers.any (fun b => matchesOptVersion b modInfo.version) then
          !opposite
        else
          opposite
      | none => opposite

/-- The `for i in &dependency.unless` loop of `check_mod_dependency`:
true as soon as one unless-entry is satisfied with `invert = false`. -/
def check_unless_list {V : Type u} (mods : List (String × ModInfo V)) :
    List (DepRequirement V) → Bool
  | [] => false
  | u :: rest => check_mod_dependency mods u false || check_unless_list mods rest

end

/-- The issue source label used by every `ModIssue::new` call in
`check_mod_dependencies`: `i.name.as_ref().unwrap_or(&i.id)`. -/
def sourceLabel {V : Type u} (i : ModInfo V) : String :=
  i.name.getD i.id

/-- The body of the outer `for i in mods.values()` loop of
`check_mod_dependencies` (`src/components/mods.rs` lines 188-214): five
relation loops, each pushing one issue per unsatisfied requirement. -/
def issues_for_mod {V : Type u} (mods : List (String × ModInfo V)) (i : ModInfo V) :
    List (ModIssue V) :=
  (i.depends.filterMap fun d =>
    if check_mod_dependency mods d false then none
    else some ⟨.Hard, sourceLabel i, .depends, d⟩) ++
  (i.recommends.filterMap fun d =>
    if check_mod_dependency mods d false then none
    else some ⟨.Soft, sourceLabel i, .recommends, d⟩) ++
  (i.suggests.filterMap fun d =>
    if check_mod_dependency mods d false then none
    else some ⟨.Suggestive, sourceLabel i, .suggests, d⟩) ++
  (i.conflicts.filterMap fun d =>
    if check_mod_dependency mods d true then none
    else some ⟨.Soft, sourceLabel i, .conflicts, d⟩) ++
  (i.breaks.filterMap fun d =>
    if check_mod_dependency mods d true then none
    else some ⟨.Hard, sourceLabel i, .breaks, d⟩)

/-- `check_mod_dependencies` from `src/components/mods.rs` (lines
186-216). -/
def check_mod_dependencies {V : Type u} (mods : List (String × ModInfo V)) :
    List (ModIssue V) :=
  (mods.map Prod.snd).flatMap (issues_for_mod mods)

/-! ### Rule evaluator (`src/utils.rs`, `src/minecraft/schemas.rs`) -/

/-- `OSType` from `src/minecraft/schemas.rs`. -/
inductive OSType : Type where
  | Linux
  | Windows
  | OSX
deriving DecidableEq

/-- `RulePlatform` from `src/minecraft/schemas.rs`. -/
structure RulePlatform : Type where
  name : Option OSType
  version : Option String
  arch : Option String
deriving DecidableEq

/-- `EnvRuleType` from `src/minecraft/schemas.rs`. -/
inductive EnvRuleType : Type where
  | Allow
  | Disallow
deriving DecidableEq

/-- `EnvRule` from `src/minecraft/schemas.rs`; the `features` map is
modelled as an association list. -/
structure EnvRule : Type where
  action : EnvRuleType
  features : Option (List (String × Bool))
  os : Option RulePlatform
deriving DecidableEq

/-- `check_rule` from `src/utils.rs` (lines 64-72).  The compile-time
`get_os()` becomes the explicit `currentOS` argument.  Note that the
rule's `action` field is never consulted beyond this translation: the
source reads only `os.name` and `features`. -/
def check_rule (currentOS : OSType) (rule : EnvRule) : Bool :=
  match rule.os with
  | some os =>
    match os.name with
    | some name => currentOS == name
    | none => rule.features.isNone
  | none => rule.features.isNone

/-- `check_rules_no_option` from `src/utils.rs` (lines 75-82): all
rules must pass. -/
def check_rules_no_option (currentOS : OSType) (rules : List EnvRule) : Bool :=
  rules.all (check_rule currentOS)

/-- `check_rules` from `src/utils.rs` (lines 85-95): no list means
active; a present list is active as soon as one rule passes. -/
def check_rules (currentOS : OSType) (rules : Option (List EnvRule)) : Bool :=
  match rules with
  | none => true
  | some rs => rs.any (check_rule currentOS)

/-! ### Maven coordinates (`src/utils/maven_coord.rs`) -/

/-- `ArtifactCoordinate` from `src/utils/maven_coord.rs`. -/
structure ArtifactCoordinate : Type where
  group : String
  name : String
  version : String
  classifier : Option String
  extension : String
deriving DecidableEq

/-- `self.group.replace(".", "/")` of `ArtifactCoordinate::to_path`:
for the one-character pattern `"."`, `str::replace` is exactly a
character map. -/
def dotsToSlashes (s : String) : String :=
  String.mk (s.data.map (fun c => if c == '.' then '/' else c))

/-- `ArtifactCoordinate::to_path`:
`group.replace(".", "/")/name/version/name-version[-classifier].ext`. -/
def ArtifactCoordinate.to_path (c : ArtifactCoordinate) : String :=
  dotsToSlashes c.group ++ "/" ++ c.name ++ "/" ++ c.version ++ "/" ++
    c.name ++ "-" ++ c.version ++
    (match c.classifier with
     | some cls => "-" ++ cls
     | none => "") ++
    "." ++ c.extension

/-! ### Launch descriptor schemas (`src/minecraft/schemas.rs`) -/

/-- `Resource` from `src/minecraft/schemas.rs`. -/
structure Resource : Type where
  url : String
  sha1 : String
  size : Nat
deriving DecidableEq

/-- `LibraryArtifact` from `src/minecraft/schemas.rs`. -/
structure LibraryArtifact : Type where
  path : String
  res : Resource
deriving DecidableEq

/-- `LibraryBase` from `src/minecraft/schemas.rs`. -/
structure LibraryBase : Type where
  name : ArtifactCoordinate
  rules : Option (List EnvRule)
deriving DecidableEq

/-- `LibraryDownloadsVanillaNatives`: the `classifiers` map, as an
association list. -/
structure LibraryDownloadsVanillaNatives : Type where
  classifiers : List (String × LibraryArtifact)
deriving DecidableEq

/-- `LibraryDownloadsVanillaAndForge` from `src/minecraft/schemas.rs`. -/
structure LibraryDownloadsVanillaAndForge : Type where
  artifact : LibraryArtifact
deriving DecidableEq

/-- `LibraryVanillaNatives` from `src/minecraft/schemas.rs`; the
`natives` map is an association list. -/
structure LibraryVanillaNatives : Type where
  downloads : LibraryDownloadsVanillaNatives
  natives : List (OSType × String)
  base : LibraryBase
deriving DecidableEq

/-- `LibraryVanillaForgeAndNeo` from `src/minecraft/schemas.rs`. -/
structure LibraryVanillaForgeAndNeo : Type where
  downloads : LibraryDownloadsVanillaAndForge
  base : LibraryBase
deriving DecidableEq

/-- `LibraryFabricOldForgeAndLiteLoader` from
`src/minecraft/schemas.rs`; `clientreq` defaults to true when absent in
JSON, deserialisation is out of scope. -/
structure LibraryFabricOldForgeAndLiteLoader : Type where
  url : String
  checksum : Option (List String)
  clientreq : Bool
  base : LibraryBase
deriving DecidableEq

/-- `LibraryFabricWithHash` from `src/minecraft/schemas.rs`. -/
structure LibraryFabricWithHash : Type where
  url : String
  base : LibraryBase
  size : Nat
  sha1 : String
deriving DecidableEq

/-- `Library` from `src/minecraft/schemas.rs`. -/
inductive Library : Type where
  | VanillaNatives (l : LibraryVanillaNatives)
  | VanillaForgeAndNeo (l : LibraryVanillaForgeAndNeo)
  | FabricWithHash (l : LibraryFabricWithHash)
  | FabricOldForgeAndLiteLoader (l : LibraryFabricOldForgeAndLiteLoader)
  | BaseOnly (l : LibraryBase)
deriving DecidableEq

/-- `Library::get_base` from `src/minecraft/schemas.rs`. -/
def Library.get_base : Library → LibraryBase
  | .FabricWithHash l => l.base
  | .FabricOldForgeAndLiteLoader l => l.base
  | .VanillaForgeAndNeo l => l.base
  | .VanillaNatives l => l.base
  | .BaseOnly l => l

/-- `OneOrMoreArguments` from `src/minecraft/schemas.rs`. -/
inductive OneOrMoreArguments : Type where
  | One (s : String)
  | More (ss : List String)
deriving DecidableEq

/-- `Argument` from `src/minecraft/schemas.rs`. -/
inductive Argument : Type where
  | String (s : String)
  | Conditional (rules : List EnvRule) (value : OneOrMoreArguments)
deriving DecidableEq

/-- `Arguments` from `src/minecraft/schemas.rs`. -/
structure Arguments : Type where
  game : Option (List Argument)
  jvm : Option (List Argument)
deriving DecidableEq

/-- `VersionType` from `src/minecraft/schemas.rs`. -/
inductive VersionType : Type where
  | Snapshot
  | Release
  | OldBeta
  | OldAlpha
deriving DecidableEq

/-- `ResourceWithID` from `src/minecraft/schemas.rs`. -/
structure ResourceWithID : Type where
  id : String
  res : Resource
deriving DecidableEq

/-- `AssetIndexInfo` from `src/minecraft/schemas.rs`. -/
structure AssetIndexInfo : Type where
  total_size : Nat
  res : ResourceWithID
deriving DecidableEq

/-- `VersionJSONDownloads` from `src/minecraft/schemas.rs`. -/
structure VersionJSONDownloads : Type where
  client : Resource
  client_mappings : Option Resource
  server : Resource
  server_mappings : Option Resource
deriving DecidableEq

/-- `JavaInfo` from `src/minecraft/schemas.rs`. -/
structure JavaInfo : Type where
  component : String
  major_version : Nat
deriving DecidableEq

/-- `LoggingInfo` from `src/minecraft/schemas.rs`. -/
structure LoggingInfo : Type where
  argument : String
  file : ResourceWithID
  typ : String
deriving DecidableEq

/-- `VersionJSONLogging` from `src/minecraft/schemas.rs`. -/
structure VersionJSONLogging : Type where
  client : Option LoggingInfo
deriving DecidableEq

/-- `VersionJSONBase` from `src/minecraft/schemas.rs`. -/
structure VersionJSONBase : Type where
  inherits_from : Option String
  asset_index : AssetIndexInfo
  assets : String
  compliance_level : Int
  downloads : VersionJSONDownloads
  id : String
  java_version : JavaInfo
  libraries : List Library
  logging : VersionJSONLogging
  main_class : String
  minimum_launcher_version : Nat
  release_time : String
  time : String
  typ : VersionType
  client_version : Option String
deriving DecidableEq

/-- `VersionJSON` from `src/minecraft/schemas.rs`: the old style carries
a flat `minecraftArguments` string, the new style a structured
`Arguments`. -/
inductive VersionJSON : Type where
  | Old (minecraft_arguments : String) (base : VersionJSONBase)
  | New (arguments : Arguments) (base : VersionJSONBase)
deriving DecidableEq

/-- `VersionJSON::get_base` from `src/minecraft/schemas.rs`. -/
def VersionJSON.get_base : VersionJSON → VersionJSONBase
  | .Old _ base => base
  | .New _ base => base

/-- Style discriminator: true for the legacy single-string-arguments
(`Old`) form. -/
def VersionJSON.isOld : VersionJSON → Bool
  | .Old _ _ => true
  | .New _ _ => false

/-! ### Descriptor merger (`src/utils.rs`, `merge_version_json`) -/

/-- `merge_version_json` from `src/utils.rs` (lines 106-137).  `a` is
the base, `b` the overlay. -/
def merge_version_json (a b : VersionJSON) : Except String VersionJSON :=
  let c0 := a.get_base
  let c : VersionJSONBase :=
    { c0 with
      libraries := b.get_base.libraries ++ c0.libraries,
      main_class := b.get_base.main_class }
  match a with
  | .Old _ _ =>
    match b with
    | .Old minecraft_arguments _ => .ok (.Old minecraft_arguments c)
    | .New _ _ => .error "try to merge different kinds of version json!"
  | .New arguments_a _ =>
    match b with
    | .New arguments_b _ =>
      let new_game :=
        match arguments_a.game with
        | none => arguments_b.game
        | some g =>
          match arguments_b.game with
          | some b_game => some (g ++ b_game)
          | none => some g
      let new_jvm :=
        match arguments_a.jvm with
        | none => arguments_b.jvm
        | some j =>
          match arguments_b.jvm with
          | some b_jvm => some (j ++ b_jvm)
          | none => some j
      .ok (.New { game := new_game, jvm := new_jvm } c)
    | .Old _ _ => .error "try to merge different kinds of version json!"

/-! ### Download pre-filter and orchestrator (`src/utils/download.rs`)

The filesystem is modelled as a map from path strings to file metadata;
a file's SHA-1 hex digest is stored with it (the `sha1` crate's digest
computation is external).  The `async_fetcher` crate is abstracted by a
per-source outcome function: the events it emits and its terminal
result after its internal retries over the source's candidate URLs. -/

/-- On-disk file metadata: its byte size and the SHA-1 hex digest of
its content. -/
structure FileData : Type where
  size : Nat
  sha1Hex : String
deriving DecidableEq

/-- The filesystem: `none` means the path does not exist (so
`fs::metadata` errors). -/
def FS : Type := String → Option FileData

/-- `check_hash` from `src/utils/download.rs` (lines 21-41),
specialised to `Sha1` as every caller in the repository does.  A
metadata error means the file is absent; a present file is assumed
readable, so the open/copy error branches (which also return false)
are not modelled. -/
def check_hash (fs : FS) (path : String) (digest : String) (size : Nat) : Bool :=
  match fs path with
  | none => false
  | some meta =>
    if size ≠ 0 ∧ meta.size ≠ size then false
    else meta.sha1Hex == digest

/-- `async_fetcher::Source` as built by `check_and_download`: the
destination path and the ordered candidate URL list (the `part` field
is always `None` in the source). -/
structure Source : Type where
  dest : String
  urls : List String
deriving DecidableEq

/-- `check_and_download` from `src/utils/download.rs` (lines 54-65): a
fetch source is created exactly when the on-disk file fails the
hash/size check.  The `create_dir_all` side effect and the `Arc<()>`
companion are not modelled. -/
def check_and_download (fs : FS) (path : String) (res : Resource) (urls : List String) :
    Option Source :=
  if !check_hash fs path res.sha1 res.size then
    some { dest := path, urls := urls }
  else
    none

/-- `mirrored` from `src/utils/download.rs` (lines 113-121): rewrite
known upstream hosts to mirror equivalents.  The source applies the
`resources.download.minecraft.net` replacement twice; the chain is kept
verbatim. -/
def mirrored (url mirror : String) : String :=
  (((((url.replace "resources.download.minecraft.net" (mirror ++ "/assets")).replace
      "libraries.minecraft.net" (mirror ++ "/maven")).replace
      "files.minecraftforge.net" mirror).replace
      "maven.fabricmc.net" mirror).replace
      "maven.neoforged.net/releases/net/neoforged/neoforge"
      (mirror ++ "/maven/net/neoforged/neoforge")).replace
      "resources.download.minecraft.net" (mirror ++ "/assets")

/-- The candidate URL list built per resource inside `download_all`:
mirror-substituted URL first, then the original, or just the original
when no mirror is configured. -/
def urls_for (mirror : Option String) (res : Resource) : List String :=
  match mirror with
  | some m => [mirrored res.url m, res.url]
  | none => [res.url]

/-- The abstract fetcher: for each source, the events it emits and its
terminal outcome — `some e` when the fetch failed after the fetcher's
internal retry budget and the source's candidate URLs were exhausted,
`none` on success. -/
def Fetcher (E Ev : Type) : Type := Source → List Ev × Option E

/-- The pre-filter pass of `download_all`: one `check_and_download` per
`(Resource, Path)` pair, keeping the sources of the pairs that failed
the check (the `join_all` + `filter`/`map` at lines 83-86). -/
def download_sources (fs : FS) (resources : List (Resource × String))
    (mirror : Option String) : List Source :=
  resources.filterMap (fun rp => check_and_download fs rp.2 rp.1 (urls_for mirror rp.1))

/-- The `fetch_task` loop's effect on the filesystem: every source
whose terminal result is an error has its (partial) destination file
removed (`tokio::fs::remove_file`).  Successful downloads are written
by the external fetcher, not by this code, so they are not modelled
here. -/
def remove_failed {E Ev : Type} (fetcher : Fetcher E Ev) (fs : FS) (sources : List Source) :
    FS :=
  sources.foldl
    (fun acc s =>
      match (fetcher s).2 with
      | some _ => fun q => if q == s.dest then none else acc q
      | none => acc)
    fs

/-- The observable outcome of one `download_all` call. -/
structure DownloadAllResult (E Ev : Type) : Type where
  fs : FS
  failed : List (String × E)
  events : List (String × Ev)
  ret : Except String Unit

/-- `download_all` from `src/utils/download.rs` (lines 68-111),
sequentialised.  `failed` is the list of `Err` messages the
`fetch_task` loop sends on the caller's channel (one per source whose
terminal result is an error, carrying the destination path), `events`
the `Ok` messages the `send_task` loop forwards from the fetcher, `fs`
the filesystem after the failed partial files are removed, and `ret`
the function's own return value, which is always `Ok(())`: per-file
exhaustion never fails the call. -/
def download_all {E Ev : Type} (fs : FS) (resources : List (Resource × String))
    (fetcher : Fetcher E Ev) (mirror : Option String) : DownloadAllResult E Ev :=
  let sources := download_sources fs resources mirror
  { fs := remove_failed fetcher fs sources,
    failed := sources.filterMap (fun s => ((fetcher s).2).map (fun e => (s.dest, e))),
    events := sources.flatMap (fun s => ((fetcher s).1).map (fun ev => (s.dest, ev))),
    ret := .ok () }

/-! ### Library resource planner (`src/minecraft/install.rs`) -/

/-- `BetterPath`'s `/` join operator, on path strings. -/
def pathJoin (a b : String) : String :=
  a ++ "/" ++ b

/-- `install_libraries` from `src/minecraft/install.rs` (lines
102-146).  `root_path` is the launcher root; the Rust function returns
`Result` but has no error path, so the list is returned directly.  In
the `VanillaNatives` branch the source calls `.unwrap()` on the
classifier lookup — a missing classifier panics there; the model emits
nothing in that (never-exercised) case. -/
def install_libraries (currentOS : OSType) (root_path : String)
    (libraries : List Library) (always_download_nohash : Bool) :
    List (Resource × String) :=
  let lib_path := pathJoin root_path "libraries"
  libraries.flatMap (fun lib =>
    if !check_rules currentOS lib.get_base.rules then
      []
    else
      match lib with
      | .FabricWithHash l =>
        [({ url := l.url ++ "/" ++ l.base.name.to_path,
            sha1 := l.sha1,
            size := l.size },
          pathJoin lib_path l.base.name.to_path)]
      | .FabricOldForgeAndLiteLoader l =>
        if !l.clientreq then
          []
        else
          [({ url := l.url ++ "/" ++ l.base.name.to_path,
              sha1 := toString always_download_nohash,
              size := 0 },
            pathJoin lib_path l.base.name.to_path)]
      | .VanillaForgeAndNeo l =>
        [(l.downloads.artifact.res, pathJoin lib_path l.downloads.artifact.path)]
      | .VanillaNatives l =>
        match l.natives.lookup currentOS with
        | some os =>
          match l.downloads.classifiers.lookup os with
          | some artifact => [(artifact.res, pathJoin lib_path artifact.path)]
          | none => []
        | none => []
      | .BaseOnly l =>
        [({ url := "https://libraries.minecraft.net/" ++ l.name.to_path,
            sha1 := toString always_download_nohash,
            size := 0 },
          pathJoin lib_path l.name.to_path)])

/-! ### Mod enumeration (`src/components/mods.rs`, `list_mods`)

A mod loader is abstracted by its `get_mods_in_file` function (the
`ModLoader` trait); the mods directory listing is a list of
`(file_name, is_dir)` pairs. -/

/-- The errors `list_mods` can return, beyond what this model leaves
out (directory-read and file-name-decoding failures): the
missing-version guard, and a propagated `get_mods_in_file` error. -/
inductive ListModsError (E : Type) : Type where
  | versionUnknown
  | loaderFailed (e : E)
deriving DecidableEq

/-- `HashMap::insert` keyed by mod id on an association list: replace
the value at an existing key, otherwise append. -/
def insert_mod {V : Type u} (m : List (String × ModInfo V)) (info : ModInfo V) :
    List (String × ModInfo V) :=
  if m.any (fun kv => kv.1 == info.id) then
    m.map (fun kv => if kv.1 == info.id then (kv.1, info) else kv)
  else
    m ++ [(info.id, info)]

/-- The inner `for l in &loaders` loop of `list_mods`: every loader's
`get_mods_in_file` result is inserted into the file's id→info map `acc`;
an `Err` from any loader propagates (the `?` at
`src/components/mods.rs` line 269). -/
def mods_in_file_loop {V : Type u} {E : Type} (path : String)
    (acc : List (String × ModInfo V)) :
    List (String → Except E (List (ModInfo V))) →
      Except E (List (String × ModInfo V))
  | [] => .ok acc
  | l :: rest =>
    match l path with
    | .ok infos => mods_in_file_loop path (infos.foldl insert_mod acc) rest
    | .error e => .error e

/-- The per-file id→info map of `list_mods`, starting from an empty
map. -/
def mods_in_file {V : Type u} {E : Type}
    (loaders : List (String → Except E (List (ModInfo V))))
    (path : String) : Except E (List (String × ModInfo V)) :=
  mods_in_file_loop path [] loaders

/-- The `while let Some(file) = dir.next_entry()` loop of `list_mods`:
directories are skipped, and each file's map is computed by
`mods_in_file`, whose error propagates and aborts the loop. -/
def list_mods_loop {V : Type u} {E : Type}
    (loaders : List (String → Except E (List (ModInfo V))))
    (moddir : String) (acc : List (String × List (String × ModInfo V))) :
    List (String × Bool) →
      Except (ListModsError E) (List (String × List (String × ModInfo V)))
  | [] => .ok acc
  | entry :: rest =>
    if entry.2 then
      list_mods_loop loaders moddir acc rest
    else
      match mods_in_file loaders (pathJoin moddir entry.1) with
      | .ok mif => list_mods_loop loaders moddir (acc ++ [(entry.1, mif)]) rest
      | .error e => .error (.loaderFailed e)

/-- `list_mods` from `src/components/mods.rs` (lines 252-278).
`version` is `extra_data.version`; `loaders` stands for the loaders
collected from the installation's components; `entries` is the
directory listing of `moddir` as `(file_name, is_dir)` pairs. -/
def list_mods {V : Type u} {E : Type} (version : Option String)
    (loaders : List (String → Except E (List (ModInfo V))))
    (moddir : String) (entries : List (String × Bool)) :
    Except (ListModsError E) (List (String × List (String × ModInfo V))) :=
  match version with
  | none => .error .versionUnknown
  | some _ => list_mods_loop loaders moddir [] entries

/-! ### Specification-side definitions

These follow the spec's words, to be compared with the definitions
translated from the source above. -/

/-- The activity notion exactly as the spec's Rule section words it: a
present rule list is active iff at least one rule matches the current
platform AND no rule whose constraints match has action `disallow`.
(The source's `check_rules` ignores actions; this definition is the
spec's claimed behaviour, for comparison.) -/
def rules_active_claimed (currentOS : OSType) (rules : Option (List EnvRule)) : Prop :=
  match rules with
  | none => True
  | some rs =>
    (∃ r ∈ rs, check_rule currentOS r = true) ∧
    (∀ r ∈ rs, check_rule currentOS r = true → r.action ≠ .Disallow)

/-- The OS name a rule constrains, when it names one. -/
def EnvRule.osName (r : EnvRule) : Option OSType :=
  r.os.bind RulePlatform.name

/-- The spec's relation → invert → severity table, row by row. -/
def relation_table {V : Type u} (m : ModInfo V) :
    List (List (DepRequirement V) × Bool × ModIssueLevel × Relation) :=
  [(m.depends, false, .Hard, .depends),
   (m.recommends, false, .Soft, .recommends),
   (m.suggests, false, .Suggestive, .suggests),
   (m.conflicts, true, .Soft, .conflicts),
   (m.breaks, true, .Hard, .breaks)]

/-- The validator as the spec words it: for every mod, for every row of
the relation table, one issue of the row's severity per requirement not
satisfied under the row's invert flag. -/
def validate_spec {V : Type u} (mods : List (String × ModInfo V)) : List (ModIssue V) :=
  (mods.map Prod.snd).flatMap (fun m =>
    (relation_table m).flatMap (fun row =>
      row.1.filterMap (fun d =>
        if check_mod_dependency mods d row.2.1 then none
        else some ⟨row.2.2.1, sourceLabel m, row.2.2.2, d⟩)))

/-- New-style argument merging as the spec words it: base's list when
overlay's is absent, overlay's verbatim when base's is absent, base
extended by overlay when both are present. -/
def merge_arg_lists_spec (base overlay : Option (List Argument)) : Option (List Argument) :=
  match base, overlay with
  | none, _ => overlay
  | some g, none => some g
  | some g, some h => some (g ++ h)

/-- The library list of a merge result (empty on error). -/
def libsOf (e : Except String VersionJSON) : List Library :=
  match e with
  | .ok c => c.get_base.libraries
  | .error _ => []

/-! ### Concrete inputs for witnesses and counterexamples -/

/-- A disallow rule whose OS constraint names Linux. -/
def disallowLinuxRule : EnvRule :=
  { action := .Disallow, features := none,
    os := some { name := some .Linux, version := none, arch := none } }

/-- An all-empty `Resource`. -/
def resource_empty : Resource := { url := "", sha1 := "", size := 0 }

/-- A minimal `VersionJSONBase` with no libraries. -/
def vbase_empty : VersionJSONBase :=
  { inherits_from := none,
    asset_index := { total_size := 0, res := { id := "", res := resource_empty } },
    assets := "", compliance_level := 0,
    downloads := { client := resource_empty, client_mappings := none,
                   server := resource_empty, server_mappings := none },
    id := "base", java_version := { component := "", major_version := 0 },
    libraries := [], logging := { client := none }, main_class := "Main",
    minimum_launcher_version := 0, release_time := "", time := "",
    typ := .Release, client_version := none }

/-- A coordinate-only library `g:a:1`. -/
def libA : Library :=
  .BaseOnly { name := { group := "g", name := "a", version := "1",
                        classifier := none, extension := "jar" }, rules := none }

/-- A coordinate-only library `g:b:1`. -/
def libB : Library :=
  .BaseOnly { name := { group := "g", name := "b", version := "1",
                        classifier := none, extension := "jar" }, rules := none }

/-- Base descriptor body holding `[libA]`. -/
def vbaseA : VersionJSONBase := { vbase_empty with libraries := [libA] }

/-- Overlay descriptor body holding `[libB]`. -/
def vbaseB : VersionJSONBase := { vbase_empty with libraries := [libB] }

/-- A mod whose only relation is `conflicts [target]`, with id `A`. -/
def conflictsOnlyMod (V : Type u) (target : String) : ModInfo V :=
  { name := none, id := "A", version := none, desc := none, license := "ARR",
    depends := [], recommends := [], suggests := [],
    conflicts := [.mk target [] none []], breaks := [] }

/-- A mod with the given id and version and no relations. -/
def plainMod (V : Type u) (mid : String) (v : Option V) : ModInfo V :=
  { name := none, id := mid, version := v, desc := none, license := "ARR",
    depends := [], recommends := [], suggests := [], conflicts := [], breaks := [] }

/-- A filesystem holding one file at `"p"`, 7 bytes, digest `"h"`. -/
def fs6 : FS := fun q => if q == "p" then some { size := 7, sha1Hex := "h" } else none

/-- A resource expecting exactly that file at `"p"`. -/
def res6 : Resource := { url := "http://x/u", sha1 := "h", size := 7 }

/-- A fetcher that is never exercised (every source would succeed with
no events). -/
def fetcher6 : Fetcher Unit Unit := fun _ => ([], none)

/-- The empty filesystem. -/
def fs7 : FS := fun _ => none

/-- A resource destined for `"p"`. -/
def res7 : Resource := { url := "u1", sha1 := "h1", size := 1 }

/-- A resource destined for `"q"`. -/
def res8 : Resource := { url := "u2", sha1 := "h2", size := 2 }

/-- A fetcher failing the `"p"` source terminally and fetching the
`"q"` source with one event. -/
def fetcher7 : Fetcher String Unit := fun s =>
  if s.dest == "p" then ([], some "network error") else ([()], none)

/-- Two pending resources, destined for `"p"` and `"q"`. -/
def resources7 : List (Resource × String) := [(res7, "p"), (res8, "q")]

/-- One loader, erroring on `mods/bad.jar` and succeeding (with no
mods) elsewhere. -/
def loader8 : String → Except String (List (ModInfo Nat)) := fun path =>
  if path == "mods/bad.jar" then .error "malformed metadata" else .ok []

/-- The coordinate `com.example:lib:1.0`. -/
def coord9 : ArtifactCoordinate :=
  { group := "com.example", name := "lib", version := "1.0",
    classifier := none, extension := "jar" }

/-- A coordinate-only library on that coordinate. -/
def lib9_base_only : Library := .BaseOnly { name := coord9, rules := none }

/-- A flag-gated (download-if-missing) library on that coordinate. -/
def lib9_flag_gated : Library :=
  .FabricOldForgeAndLiteLoader
    { url := "https://maven.example.com", checksum := none, clientreq := true,
      base := { name := coord9, rules := none } }

/-- The destination the planner computes for `coord9`. -/
def dest9 : String := "root/libraries/com/example/lib/1.0/lib-1.0.jar"

/-- A filesystem with a correct-looking file at `dest9`: its digest is
a genuine 40-hex-character SHA-1 rendering. -/
def fs9 : FS := fun q =>
  if q == dest9 then
    some { size := 1234, sha1Hex := "da39a3ee5e6b4b0d3255bfef95601890afd80709" }
  else none

/-! ## Helper lemmas -/

theorem check_unless_list_iff {V : Type u} (mods : List (String × ModInfo V))
    (l : List (DepRequirement V)) :
    check_unless_list mods l = true ↔
      ∃ u ∈ l, check_mod_dependency mods u false = true := by
  induction l with
  | nil => simp [check_unless_list]
  | cons u rest ih => simp [check_unless_list, ih]

theorem any_matchesOpt_iff {V : Type u} (vers : List (VersionBound V)) (ov : Option V)
    (hne : vers ≠ []) :
    (vers.any (fun b => matchesOptVersion b ov) = true) ↔
      (ov = none ∨ ∃ b ∈ vers, ∃ v, ov = some v ∧ b.matches v = true) := by
  cases ov with
  | none =>
    simp only [matchesOptVersion, List.any_eq_true]
    constructor
    · intro _
      exact Or.inl (by trivial)
    · intro _
      obtain ⟨b, bs, rfl⟩ := List.exists_cons_of_ne_nil hne
      exact ⟨b, by simp⟩
  | some v =>
    simp [matchesOptVersion, List.any_eq_true]

/-- The defining equation of `check_mod_dependency`, stated once so the
case theorems can rewrite with it. -/
theorem check_mod_dependency_unfold {V : Type u} (mods : List (String × ModInfo V))
    (i : String) (vers : List (VersionBound V)) (r : Option String)
    (unl : List (DepRequirement V)) (opposite : Bool) :
    check_mod_dependency mods (.mk i vers r unl) opposite =
      if check_unless_list mods unl then true
      else
        match mods.lookup i with
        | some modInfo =>
          if vers.isEmpty then !opposite
          else if vers.any (fun b => matchesOptVersion b modInfo.version) then !opposite
          else opposite
        | none => opposite := rfl

/-- C1: `check_mod_dependency` behaves as the claim states.  Any
satisfied `unless` entry short-circuits to true regardless of `invert`;
otherwise an absent target yields `invert`, a present target with no
version bounds yields `!invert`, and a present target with bounds
yields `!invert` exactly when the target's version is unset or some
bound (an AND of its requirements, `VersionBound.matches`) matches, and
`invert` otherwise. -/
theorem C1_check_mod_dependency_spec {V : Type u} (mods : List (String × ModInfo V))
    (i : String) (vers : List (VersionBound V)) (r : Option String)
    (unl : List (DepRequirement V)) (invert : Bool) :
    ((∃ u ∈ unl, check_mod_dependency mods u false = true) →
      check_mod_dependency mods (.mk i vers r unl) invert = true) ∧
    ((∀ u ∈ unl, check_mod_dependency mods u false = false) →
      (mods.lookup i = none →
        check_mod_dependency mods (.mk i vers r unl) invert = invert) ∧
      (∀ m, mods.lookup i = some m → vers = [] →
        check_mod_dependency mods (.mk i vers r unl) invert = !invert) ∧
      (∀ m, mods.lookup i = some m → vers ≠ [] →
        ((check_mod_dependency mods (.mk i vers r unl) invert = !invert ↔
           (m.version = none ∨ ∃ b ∈ vers, ∃ v, m.version = some v ∧ b.matches v = true)) ∧
         (check_mod_dependency mods (.mk i vers r unl) invert = invert ↔
           ¬(m.version = none ∨ ∃ b ∈ vers, ∃ v, m.version = some v ∧ b.matches v = true))))) := by
  constructor
  · rintro ⟨u, hu, hsat⟩
    have hcu : check_unless_list mods unl = true :=
      (check_unless_list_iff mods unl).mpr ⟨u, hu, hsat⟩
    simp [check_mod_dependency, hcu]
  · intro hno
    have hcu : check_unless_list mods unl = false := by
      rw [← Bool.not_eq_true, check_unless_list_iff]
      rintro ⟨u, hu, hsat⟩
      simp [hno u hu] at hsat
    refine ⟨?_, ?_, ?_⟩
    · intro hlk
      rw [check_mod_dependency_unfold, hcu, hlk]
      simp
    · intro m hlk hv
      subst hv
      rw [check_mod_dependency_unfold, hcu, hlk]
      simp
    · intro m hlk hv
      have hA := any_matchesOpt_iff vers m.version hv
      have hne : vers.isEmpty = false := by
        cases vers with
        | nil => exact absurd rfl hv
        | cons b bs => rfl
      have hEq : check_mod_dependency mods (.mk i vers r unl) invert =
          if vers.any (fun b => matchesOptVersion b m.version) then !invert else invert := by
        rw [check_mod_dependency_unfold, hcu, hlk, hne]
        simp
      have hfalse_of_np :
          ¬(m.version = none ∨ ∃ b ∈ vers, ∃ v, m.version = some v ∧ b.matches v = true) →
            vers.any (fun b => matchesOptVersion b m.version) = false := by
        intro hnp
        cases h : vers.any (fun b => matchesOptVersion b m.version) with
        | true => exact absurd (hA.mp h) hnp
        | false => rfl
      rw [hEq]
      constructor
      · constructor
        · intro hlhs
          by_contra hnp
          rw [hfalse_of_np hnp] at hlhs
          simp at hlhs
        · intro hp
          rw [hA.mpr hp]
          simp
      · constructor
        · intro hlhs hp
          rw [hA.mpr hp] at hlhs
          simp at hlhs
        · intro hnp
          rw [hfalse_of_np hnp]
          simp

/-- C2, counterexample: a single rule with action disallow whose OS
constraint names the current OS (Linux).  `check_rules` reports the
item active (true), while the claim's activity notion — no matching
rule may have action disallow — reports it inactive. -/
theorem C2_disallow_rule_counterexample :
    check_rules .Linux (some [disallowLinuxRule]) = true ∧
    ¬ rules_active_claimed .Linux (some [disallowLinuxRule]) := by
  constructor
  · rfl
  · intro h
    exact h.2 disallowLinuxRule (by simp) rfl rfl

/-- C2, amended: `check_rules` returns true when the list is absent;
a present list is active iff at least one rule passes `check_rule`,
and `check_rule` passes iff the rule's OS name equals the current OS,
or the rule names no OS and carries no feature map.  The rule's
action (allow/disallow) is never consulted. -/
theorem C2_check_rules_amended :
    (∀ currentOS : OSType, check_rules currentOS none = true) ∧
    (∀ (currentOS : OSType) (rs : List EnvRule),
      check_rules currentOS (some rs) = true ↔
        ∃ r ∈ rs, check_rule currentOS r = true) ∧
    (∀ (currentOS : OSType) (r : EnvRule),
      check_rule currentOS r = true ↔
        (r.osName = some currentOS ∨ (r.osName = none ∧ r.features = none))) := by
  refine ⟨fun _ => rfl, ?_, ?_⟩
  · intro currentOS rs
    simp [check_rules, List.any_eq_true]
  · intro currentOS r
    rcases r with ⟨action, features, os⟩
    cases os with
    | none => cases features <;> simp [check_rule, EnvRule.osName]
    | some p =>
      rcases p with ⟨nm, ver, arch⟩
      cases nm with
      | none => cases features <;> simp [check_rule, EnvRule.osName]
      | some n =>
        simp only [check_rule, EnvRule.osName, Option.bind, beq_iff_eq,
          Option.some.injEq]
        constructor
        · intro hEq
          exact Or.inl hEq.symm
        · rintro (hEq | ⟨hn, _⟩)
          · exact hEq.symm
          · exact absurd hn (by simp)

/-- C3: the validator equals its spec-side table form — depends,
recommends and suggests are evaluated with invert false, conflicts and
breaks with invert true; unsatisfied requirements yield one issue of
severity Hard (depends, breaks), Soft (recommends, conflicts),
Suggestive (suggests) — and on the conflict example: conflicting with
an absent id yields no issue, while a present target of any version
yields exactly one Soft issue. -/
theorem C3_validator_severities :
    (∀ (V : Type u) (mods : List (String × ModInfo V)),
      check_mod_dependencies mods = validate_spec mods) ∧
    (∀ V : Type u, check_mod_dependencies [("A", conflictsOnlyMod V "B")] = []) ∧
    (∀ (V : Type u) (vB : Option V),
      check_mod_dependencies
          [("A", conflictsOnlyMod V "B"), ("B", plainMod V "B" vB)] =
        [{ level := .Soft, source := "A", relation := .conflicts,
           dependency := .mk "B" [] none [] }]) := by
  refine ⟨?_, ?_, ?_⟩
  · intro V mods
    unfold check_mod_dependencies validate_spec
    congr 1
    funext m
    simp [issues_for_mod, relation_table]
  · intro V
    rfl
  · intro V vB
    rfl

/-- C4: merging descriptors of matching style succeeds and yields
exactly the overlay's libraries followed by the base's, so the merged
library count is the sum of the two. -/
theorem C4_merge_concats_libraries (a b : VersionJSON) (h : a.isOld = b.isOld) :
    (merge_version_json a b).isOk = true ∧
    libsOf (merge_version_json a b) = b.get_base.libraries ++ a.get_base.libraries ∧
    (libsOf (merge_version_json a b)).length =
      a.get_base.libraries.length + b.get_base.libraries.length := by
  cases a with
  | Old ma basea =>
    cases b with
    | Old mb baseb =>
      refine ⟨rfl, rfl, ?_⟩
      simp [libsOf, merge_version_json, VersionJSON.get_base]
      omega
    | New ab bb => simp [VersionJSON.isOld] at h
  | New aa basea =>
    cases b with
    | Old mb baseb => simp [VersionJSON.isOld] at h
    | New ab baseb =>
      refine ⟨rfl, rfl, ?_⟩
      simp [libsOf, merge_version_json, VersionJSON.get_base]
      omega

/-- Witness for C4 at a concrete old-style pair with one library on
each side. -/
theorem C4_merge_concats_libraries_witness :
    (merge_version_json (VersionJSON.Old "x" vbaseA) (VersionJSON.Old "y" vbaseB)).isOk
        = true ∧
    libsOf (merge_version_json (VersionJSON.Old "x" vbaseA) (VersionJSON.Old "y" vbaseB)) =
      (VersionJSON.Old "y" vbaseB).get_base.libraries ++
        (VersionJSON.Old "x" vbaseA).get_base.libraries ∧
    (libsOf (merge_version_json (VersionJSON.Old "x" vbaseA)
        (VersionJSON.Old "y" vbaseB))).length =
      (VersionJSON.Old "x" vbaseA).get_base.libraries.length +
        (VersionJSON.Old "y" vbaseB).get_base.libraries.length :=
  C4_merge_concats_libraries (VersionJSON.Old "x" vbaseA) (VersionJSON.Old "y" vbaseB) rfl

/-- C5: for new-style descriptors, game and jvm argument lists are each
merged independently as the spec states — overlay's verbatim when the
base's is absent, base's own when the overlay's is absent, base then
overlay when both are present (`merge_arg_lists_spec`). -/
theorem C5_merge_new_style_arguments (arguments_a arguments_b : Arguments)
    (baseA baseB : VersionJSONBase) :
    merge_version_json (.New arguments_a baseA) (.New arguments_b baseB) =
      .ok (.New
        { game := merge_arg_lists_spec arguments_a.game arguments_b.game,
          jvm := merge_arg_lists_spec arguments_a.jvm arguments_b.jvm }
        { baseA with
          libraries := baseB.libraries ++ baseA.libraries,
          main_class := baseB.main_class }) := by
  rcases arguments_a with ⟨ga, ja⟩
  rcases arguments_b with ⟨gb, jb⟩
  cases ga <;> cases ja <;> cases gb <;> cases jb <;> rfl

/-- C10: `merge_version_json` fails exactly when one side is old-style
and the other new-style, with the style-mismatch error; matching styles
merge successfully. -/
theorem C10_merge_error_iff_style_mismatch (a b : VersionJSON) :
    (merge_version_json a b = .error "try to merge different kinds of version json!" ↔
      a.isOld ≠ b.isOld) ∧
    ((merge_version_json a b).isOk = true ↔ a.isOld = b.isOld) := by
  cases a <;> cases b <;>
    simp [merge_version_json, VersionJSON.isOld, Except.isOk, Except.toBool]

theorem remove_failed_apply {E Ev : Type} (fetcher : Fetcher E Ev) :
    ∀ (sources : List Source) (fs : FS) (q : String),
      remove_failed fetcher fs sources q =
        if sources.any (fun s => q == s.dest && ((fetcher s).2).isSome) then none
        else fs q := by
  intro sources
  induction sources with
  | nil =>
    intro fs q
    simp [remove_failed]
  | cons s rest ih =>
    intro fs q
    have hstep : remove_failed fetcher fs (s :: rest) =
        remove_failed fetcher
          (match (fetcher s).2 with
           | some _ => fun q => if q == s.dest then none else fs q
           | none => fs) rest := rfl
    rw [hstep, ih]
    cases hf : (fetcher s).2 <;> cases hq : q == s.dest <;>
      simp [hf, hq, List.any_cons, ite_self]

theorem mem_download_sources {fs : FS} {resources : List (Resource × String)}
    {mirror : Option String} {res : Resource} {p : String}
    (hmem : (res, p) ∈ resources)
    (hno : check_hash fs p res.sha1 res.size = false) :
    ({ dest := p, urls := urls_for mirror res } : Source) ∈
      download_sources fs resources mirror := by
  unfold download_sources
  exact List.mem_filterMap.mpr ⟨(res, p), hmem, by simp [check_and_download, hno]⟩

theorem filter_failed_eq {E Ev : Type} (fetcher : Fetcher E Ev) (p : String) :
    ∀ sources : List Source,
      ((sources.filterMap (fun s => ((fetcher s).2).map (fun e => (s.dest, e)))).filter
          (fun q => q.1 == p)) =
        ((sources.filter (fun s => s.dest == p)).filterMap
          (fun s => ((fetcher s).2).map (fun e => (s.dest, e)))) := by
  intro sources
  induction sources with
  | nil => rfl
  | cons s rest ih =>
    cases hf : (fetcher s).2 <;> cases hd : s.dest == p <;>
      simp [List.filterMap_cons, List.filter_cons, hf, hd, ih]

theorem failed_length_eq {E Ev : Type} (fetcher : Fetcher E Ev) :
    ∀ sources : List Source,
      (sources.filterMap (fun s => ((fetcher s).2).map (fun e => (s.dest, e)))).length =
        (sources.filter (fun s => ((fetcher s).2).isSome)).length := by
  intro sources
  induction sources with
  | nil => rfl
  | cons s rest ih =>
    cases hf : (fetcher s).2 <;>
      simp [List.filterMap_cons, List.filter_cons, hf, ih]

theorem check_and_download_dest {fs : FS} {path : String} {res : Resource}
    {urls : List String} {s : Source}
    (h : check_and_download fs path res urls = some s) : s.dest = path := by
  unfold check_and_download at h
  split at h
  · cases h
    rfl
  · cases h

theorem check_and_download_some {fs : FS} {path : String} {res : Resource}
    {urls : List String} {s : Source}
    (h : check_and_download fs path res urls = some s) :
    check_hash fs path res.sha1 res.size = false := by
  unfold check_and_download at h
  split at h
  · rename_i hc
    simpa using hc
  · cases h

/-- C6: a `(Resource, Path)` pair whose on-disk file exists with the
expected digest and — when the expected size is nonzero — the expected
size creates no fetch source in the pre-filter; provided every pair
aiming at that path is so satisfied, the path sees no fetch activity at
all: no Failed message, no forwarded event, and the file is left
untouched. -/
theorem C6_prefilter_skips_matching {E Ev : Type} (fs : FS)
    (resources : List (Resource × String)) (fetcher : Fetcher E Ev)
    (mirror : Option String) (res : Resource) (p : String) (f : FileData)
    (hmem : (res, p) ∈ resources)
    (hfile : fs p = some f)
    (hsha : f.sha1Hex = res.sha1)
    (hsize : res.size ≠ 0 → f.size = res.size)
    (hall : ∀ r' : Resource, (r', p) ∈ resources →
      check_hash fs p r'.sha1 r'.size = true) :
    check_and_download fs p res (urls_for mirror res) = none ∧
    (download_sources fs resources mirror).all (fun s => s.dest != p) = true ∧
    (download_all fs resources fetcher mirror).failed.all (fun q => q.1 != p) = true ∧
    (download_all fs resources fetcher mirror).events.all (fun q => q.1 != p) = true ∧
    (download_all fs resources fetcher mirror).fs p = fs p := by
  have hch : check_hash fs p res.sha1 res.size = true := by
    unfold check_hash
    rw [hfile]
    have hnot : ¬(res.size ≠ 0 ∧ f.size ≠ res.size) := by
      rintro ⟨h1, h2⟩
      exact h2 (hsize h1)
    simp [hnot, hsha]
  have hnodest : ∀ s ∈ download_sources fs resources mirror, s.dest ≠ p := by
    intro s hs hdp
    rcases List.mem_filterMap.mp hs with ⟨⟨r', p'⟩, hrp, hcd⟩
    have hd := check_and_download_dest hcd
    have hf := check_and_download_some hcd
    rw [hd] at hdp
    subst hdp
    rw [hall r' hrp] at hf
    exact Bool.noConfusion hf
  refine ⟨by simp [check_and_download, hch], ?_, ?_, ?_, ?_⟩
  · rw [List.all_eq_true]
    intro s hs
    simpa using hnodest s hs
  · rw [List.all_eq_true]
    intro q hq
    have hq' : q ∈ (download_sources fs resources mirror).filterMap
        (fun s => ((fetcher s).2).map (fun e => (s.dest, e))) := hq
    rcases List.mem_filterMap.mp hq' with ⟨s, hs, hmap⟩
    obtain ⟨e, _, hqe⟩ := Option.map_eq_some'.mp hmap
    rw [← hqe]
    simpa using hnodest s hs
  · rw [List.all_eq_true]
    intro q hq
    have hq' : q ∈ (download_sources fs resources mirror).flatMap
        (fun s => ((fetcher s).1).map (fun ev => (s.dest, ev))) := hq
    rcases List.mem_flatMap.mp hq' with ⟨s, hs, hmem'⟩
    rcases List.mem_map.mp hmem' with ⟨ev, _, hqe⟩
    rw [← hqe]
    simpa using hnodest s hs
  · have hfs : (download_all fs resources fetcher mirror).fs p =
        remove_failed fetcher fs (download_sources fs resources mirror) p := rfl
    rw [hfs, remove_failed_apply]
    have hany : (download_sources fs resources mirror).any
        (fun s => p == s.dest && ((fetcher s).2).isSome) = false := by
      cases h : (download_sources fs resources mirror).any
          (fun s => p == s.dest && ((fetcher s).2).isSome) with
      | false => rfl
      | true =>
        obtain ⟨s, hs, hp⟩ := List.any_eq_true.mp h
        rw [Bool.and_eq_true] at hp
        exact absurd (beq_iff_eq.mp hp.1).symm (hnodest s hs)
    rw [hany]
    simp

/-- Witness for C6: a single pre-satisfied resource generates no
source, no message, no event, and leaves the file alone. -/
theorem C6_prefilter_skips_matching_witness :
    check_and_download fs6 "p" res6 (urls_for none res6) = none ∧
    (download_sources fs6 [(res6, "p")] none).all (fun s => s.dest != "p") = true ∧
    (download_all fs6 [(res6, "p")] fetcher6 none).failed.all
        (fun q => q.1 != "p") = true ∧
    (download_all fs6 [(res6, "p")] fetcher6 none).events.all
        (fun q => q.1 != "p") = true ∧
    (download_all fs6 [(res6, "p")] fetcher6 none).fs "p" = fs6 "p" :=
  C6_prefilter_skips_matching fs6 [(res6, "p")] fetcher6 none res6 "p"
    { size := 7, sha1Hex := "h" } (by simp) rfl rfl (fun _ => rfl)
    (by
      intro x hx
      simp only [List.mem_singleton, Prod.mk.injEq] at hx
      rw [hx.1]
      rfl)

/-- C7: a resource whose fetch terminally fails (the fetcher's retry
budget and candidate URLs exhausted) has its partial destination file
removed and exactly one Failed message carrying its path sent on the
channel; every other failing source is still reported (none skipped,
none aborted), and `download_all` itself still returns Ok. -/
theorem C7_failure_isolation {E Ev : Type} (fs : FS)
    (resources : List (Resource × String)) (fetcher : Fetcher E Ev)
    (mirror : Option String) (res : Resource) (p : String) (e : E)
    (hmem : (res, p) ∈ resources)
    (hno : check_hash fs p res.sha1 res.size = false)
    (hfail : (fetcher { dest := p, urls := urls_for mirror res }).2 = some e)
    (huniq : ((download_sources fs resources mirror).filter
        (fun s => s.dest == p)).length = 1) :
    (download_all fs resources fetcher mirror).fs p = none ∧
    ((download_all fs resources fetcher mirror).failed.filter
        (fun q => q.1 == p)) = [(p, e)] ∧
    (download_all fs resources fetcher mirror).failed.length =
      ((download_sources fs resources mirror).filter
        (fun s => ((fetcher s).2).isSome)).length ∧
    (download_all fs resources fetcher mirror).ret = .ok () := by
  have hs0 : ({ dest := p, urls := urls_for mirror res } : Source) ∈
      download_sources fs resources mirror := mem_download_sources hmem hno
  have hs0f : ({ dest := p, urls := urls_for mirror res } : Source) ∈
      (download_sources fs resources mirror).filter (fun s => s.dest == p) :=
    List.mem_filter.mpr ⟨hs0, by simp⟩
  have hfil : (download_sources fs resources mirror).filter (fun s => s.dest == p) =
      [{ dest := p, urls := urls_for mirror res }] := by
    obtain ⟨x, hx⟩ := List.length_eq_one.mp huniq
    rw [hx] at hs0f ⊢
    rw [List.mem_singleton] at hs0f
    rw [hs0f]
  refine ⟨?_, ?_, ?_, rfl⟩
  · have hfs : (download_all fs resources fetcher mirror).fs p =
        remove_failed fetcher fs (download_sources fs resources mirror) p := rfl
    rw [hfs, remove_failed_apply]
    have hany : (download_sources fs resources mirror).any
        (fun s => p == s.dest && ((fetcher s).2).isSome) = true :=
      List.any_eq_true.mpr ⟨_, hs0, by simp [hfail]⟩
    rw [hany]
    simp
  · have hfa : (download_all fs resources fetcher mirror).failed =
        (download_sources fs resources mirror).filterMap
          (fun s => ((fetcher s).2).map (fun e => (s.dest, e))) := rfl
    rw [hfa, filter_failed_eq, hfil]
    simp [hfail]
  · have hfa : (download_all fs resources fetcher mirror).failed =
        (download_sources fs resources mirror).filterMap
          (fun s => ((fetcher s).2).map (fun e => (s.dest, e))) := rfl
    rw [hfa]
    exact failed_length_eq fetcher _

/-- Witness for C7: two pending resources; the `"p"` one fails
terminally, the `"q"` one succeeds. -/
theorem C7_failure_isolation_witness :
    (download_all fs7 resources7 fetcher7 none).fs "p" = none ∧
    ((download_all fs7 resources7 fetcher7 none).failed.filter
        (fun q => q.1 == "p")) = [("p", "network error")] ∧
    (download_all fs7 resources7 fetcher7 none).failed.length =
      ((download_sources fs7 resources7 none).filter
        (fun s => ((fetcher7 s).2).isSome)).length ∧
    (download_all fs7 resources7 fetcher7 none).ret = .ok () :=
  C7_failure_isolation fs7 resources7 fetcher7 none res7 "p" "network error"
    (by simp [resources7]) rfl rfl rfl

theorem except_isOk_ok {α : Type u} {β : Type v} (a : α) :
    (Except.ok a : Except β α).isOk = true := rfl

theorem except_isOk_error {α : Type u} {β : Type v} (e : β) :
    (Except.error e : Except β α).isOk = false := rfl

theorem mods_in_file_loop_isOk {V : Type u} {E : Type} (path : String) :
    ∀ (loaders : List (String → Except E (List (ModInfo V))))
      (acc : List (String × ModInfo V)),
      (mods_in_file_loop path acc loaders).isOk = true ↔
        ∀ l ∈ loaders, (l path).isOk = true := by
  intro loaders
  induction loaders with
  | nil =>
    intro acc
    simp [mods_in_file_loop, Except.isOk, Except.toBool]
  | cons l rest ih =>
    intro acc
    cases hl : l path with
    | error e =>
      simp [mods_in_file_loop, hl, List.forall_mem_cons, except_isOk_ok, except_isOk_error]
    | ok infos =>
      simp [mods_in_file_loop, hl, ih, List.forall_mem_cons, except_isOk_ok,
        except_isOk_error]

theorem list_mods_loop_isOk {V : Type u} {E : Type}
    (loaders : List (String → Except E (List (ModInfo V)))) (moddir : String) :
    ∀ (entries : List (String × Bool)) (acc : List (String × List (String × ModInfo V))),
      (list_mods_loop loaders moddir acc entries).isOk = true ↔
        ∀ ent ∈ entries, ent.2 = false →
          (mods_in_file loaders (pathJoin moddir ent.1)).isOk = true := by
  intro entries
  induction entries with
  | nil =>
    intro acc
    simp [list_mods_loop, Except.isOk, Except.toBool]
  | cons ent rest ih =>
    intro acc
    rcases ent with ⟨ename, edir⟩
    cases edir with
    | true =>
      simp [list_mods_loop, ih, List.forall_mem_cons]
    | false =>
      cases hm : mods_in_file loaders (pathJoin moddir ename) with
      | error e =>
        simp [list_mods_loop, hm, List.forall_mem_cons, except_isOk_ok, except_isOk_error]
      | ok mif =>
        simp [list_mods_loop, hm, ih, List.forall_mem_cons, except_isOk_ok,
          except_isOk_error]

/-- C8, amended: a missing version makes `list_mods` fail outright, and
with a known version `list_mods` returns Ok exactly when every loader's
`get_mods_in_file` succeeds on every non-directory entry of the mods
directory — a single file's error is NOT swallowed: it propagates (the
`?` at `src/components/mods.rs` line 269) and aborts the whole scan. -/
theorem C8_list_mods_error_propagates :
    (∀ (V : Type u) (E : Type)
      (loaders : List (String → Except E (List (ModInfo V))))
      (moddir : String) (entries : List (String × Bool)),
      list_mods none loaders moddir entries = .error .versionUnknown) ∧
    (∀ (V : Type u) (E : Type) (v : String)
      (loaders : List (String → Except E (List (ModInfo V))))
      (moddir : String) (entries : List (String × Bool)),
      (list_mods (some v) loaders moddir entries).isOk = true ↔
        ∀ ent ∈ entries, ent.2 = false →
          ∀ l ∈ loaders, (l (pathJoin moddir ent.1)).isOk = true) := by
  constructor
  · intro V E loaders moddir entries
    rfl
  · intro V E v loaders moddir entries
    rw [show list_mods (some v) loaders moddir entries =
      list_mods_loop loaders moddir [] entries from rfl]
    rw [list_mods_loop_isOk]
    constructor
    · intro h ent hent hdir l hl
      exact (mods_in_file_loop_isOk _ loaders []).mp (h ent hent hdir) l hl
    · intro h ent hent hdir
      exact (mods_in_file_loop_isOk _ loaders []).mpr (fun l hl => h ent hent hdir l hl)

/-- C8, counterexample: one loader errors on `mods/bad.jar` and
succeeds on `mods/good.jar`, yet `list_mods` does not return Ok with
`bad.jar` omitted — it returns the error. -/
theorem C8_single_file_counterexample :
    loader8 "mods/bad.jar" = .error "malformed metadata" ∧
    loader8 "mods/good.jar" = .ok [] ∧
    (list_mods (some "1.20.1") [loader8] "mods"
        [("bad.jar", false), ("good.jar", false)]).isOk = false ∧
    list_mods (some "1.20.1") [loader8] "mods"
        [("bad.jar", false), ("good.jar", false)] =
      .error (.loaderFailed "malformed metadata") :=
  ⟨rfl, rfl, rfl, rfl⟩

/-- C9: the planner's flag-gated and coordinate-only branches set the
expected sha1 to `always_download_nohash.to_string()`, i.e. the literal
string `"false"` when the flag is false and `"true"` when it is true.
Neither is a SHA-1 hex digest, so `check_hash` fails against an
existing, intact on-disk file either way and the file is refetched
every run: the flag never lets an existing file pass the pre-filter,
contradicting the claim's `always_download_nohash = false` half. -/
theorem C9_nohash_flag_ineffective :
    (install_libraries .Linux "root" [lib9_base_only, lib9_flag_gated] false).map
        (fun rp => rp.1.sha1) = ["false", "false"] ∧
    (install_libraries .Linux "root" [lib9_base_only, lib9_flag_gated] true).map
        (fun rp => rp.1.sha1) = ["true", "true"] ∧
    (install_libraries .Linux "root" [lib9_base_only, lib9_flag_gated] false).map
        (fun rp => rp.2) = [dest9, dest9] ∧
    fs9 dest9 =
      some (FileData.mk 1234 "da39a3ee5e6b4b0d3255bfef95601890afd80709") ∧
    check_hash fs9 dest9 "false" 0 = false ∧
    check_and_download fs9 dest9
        { url := "https://libraries.minecraft.net/com/example/lib/1.0/lib-1.0.jar",
          sha1 := "false", size := 0 }
        ["https://libraries.minecraft.net/com/example/lib/1.0/lib-1.0.jar"] =
      some { dest := dest9,
             urls := ["https://libraries.minecraft.net/com/example/lib/1.0/lib-1.0.jar"] } :=
  ⟨rfl, rfl, rfl, rfl, rfl, rfl⟩

end Dmclc
